import Mathlib

/-!
Verification of the habits-app schedule engine (habit repository over a
SQLite store).  The store is embedded shallowly: each table is a list of
rows, each repository function is a Lean function from store to store or
to query results.  Calendar dates are represented by their civil day
number (days since 0000-03-01); the JS `Date` arithmetic used by the code
(UTC-midnight differences, `setDate` day shifts) is exactly addition and
subtraction on these day numbers, and the `YYYY-MM-DD` strings the code
stores compare lexicographically in the same order as the day numbers.
`formatDateString` is embedded faithfully so concrete scenarios can be
stated with the literal date strings of the specification.
-/

namespace HabitsApp

/-- A calendar day, counted as days since civil 0000-03-01. -/
abbrev Day := Nat

/-- Day number of a civil date (y, m, d), via the standard civil-from-days
algorithm; inverse of `civilFromDays` on valid dates. -/
def dayOfCivil (y m d : Nat) : Day :=
  let y1 := if m ≤ 2 then y - 1 else y
  let era := y1 / 400
  let yoe := y1 % 400
  let mp := (m + 9) % 12
  let doy := (153 * mp + 2) / 5 + d - 1
  let doe := yoe * 365 + yoe / 4 - yoe / 100 + doy
  era * 146097 + doe

/-- Civil date (y, m, d) of a day number. -/
def civilFromDays (z : Day) : Nat × Nat × Nat :=
  let era := z / 146097
  let doe := z % 146097
  let yoe := (doe - doe / 1460 + doe / 36524 - doe / 146096) / 365
  let y := yoe + era * 400
  let doy := doe - (365 * yoe + yoe / 4 - yoe / 100)
  let mp := (5 * doy + 2) / 153
  let d := doy - (153 * mp + 2) / 5 + 1
  let m := if mp < 10 then mp + 3 else mp - 9
  (if m ≤ 2 then y + 1 else y, m, d)

/-- Decimal digit character of n mod 10. -/
def digitChar (n : Nat) : Char := Char.ofNat (48 + n % 10)

/-- Two-digit zero-padded rendering, as produced by the JS padStart(2, 0). -/
def pad2 (n : Nat) : String := String.mk [digitChar (n / 10), digitChar n]

/-- Four-digit year rendering (all years handled by the app are 4 digits,
so this matches the unpadded JS template string). -/
def yearString (y : Nat) : String :=
  String.mk [digitChar (y / 1000), digitChar (y / 100), digitChar (y / 10), digitChar y]

/-- Embeds formatDateString from database.ts: local year-month-day of the
date, zero padded, joined with dashes. -/
def formatDateString (z : Day) : String :=
  let c := civilFromDays z
  yearString c.1 ++ "-" ++ pad2 c.2.1 ++ "-" ++ pad2 c.2.2

/-- JS Date.getDay: 0 = Sunday .. 6 = Saturday.  Day 0 of our epoch
(0000-03-01) was a Wednesday, hence the +3 offset. -/
def dayOfWeek (z : Day) : Nat := (z + 3) % 7

/-- A row of the habits table (see initializeSchema in database.ts and
HabitRow in types/habit.ts).  Ids are modelled as Nat; created_at only
serves ordering so it is a Nat tick. -/
structure HabitRow where
  id : Nat
  name : String
  scheduleType : String
  intervalDays : Option Nat
  oneTimeDate : Option Day
  createdAt : Nat
deriving DecidableEq, Repr

/-- A row of the interval_habit_state table. -/
structure IntervalState where
  habitId : Nat
  lastCompleted : Option Day
  lastDue : Option Day
  nextDue : Day
  rescheduleIfMissed : Bool
deriving DecidableEq, Repr

/-- The whole SQLite store: habits, habit_days (habit id, weekday),
habit_completions (habit id, completed date) and interval_habit_state.
Lists are kept in insertion order; habits are appended at creation, so
list order realises the ORDER BY created_at ASC of the queries. -/
structure Store where
  habits : List HabitRow
  habitDays : List (Nat × Nat)
  completions : List (Nat × Day)
  intervalState : List IntervalState
deriving DecidableEq, Repr

/-- SELECT * FROM habits WHERE id = ? (id is the primary key). -/
def findHabit (habits : List HabitRow) (hid : Nat) : Option HabitRow :=
  habits.find? (fun h => h.id == hid)

/-- SELECT ... FROM interval_habit_state WHERE habit_id = ? (primary key). -/
def findState (l : List IntervalState) (hid : Nat) : Option IntervalState :=
  l.find? (fun st => st.habitId == hid)

/-- One step of autoAdvanceOverdueIntervalHabits: the UPDATE applied to a
single interval_habit_state row.  The row is selected when
reschedule_if_missed = 0 and next_due < referenceDate and it joins a
habits row; interval_days is typed number in the row type of the query,
so a habit with no interval length is left untouched.  daysPassed is the
UTC-midnight day difference, intervalsToAdd its ceiling division by the
interval length. -/
def advOne (habits : List HabitRow) (refDate : Day) (st : IntervalState) : IntervalState :=
  match findHabit habits st.habitId with
  | none => st
  | some h =>
    match h.intervalDays with
    | none => st
    | some k =>
      if st.rescheduleIfMissed = false ∧ st.nextDue < refDate then
        let daysPassed := refDate - st.nextDue
        let intervalsToAdd := (daysPassed + k - 1) / k
        let newNextDue := st.nextDue + intervalsToAdd * k
        { st with nextDue := newNextDue, lastDue := some (newNextDue - k) }
      else st

/-- Embeds autoAdvanceOverdueIntervalHabits: every selected state row is
updated from its own pre-state (each UPDATE touches only the row keyed by
its habit_id), so the loop is a map over the state table. -/
def autoAdvanceOverdueIntervalHabits (s : Store) (refDate : Day) : Store :=
  { s with intervalState := s.intervalState.map (advOne s.habits refDate) }

/-- Existence of a completion row for (habit, date): the LEFT JOIN match
c.id IS NOT NULL used by the queries. -/
def completedOn (s : Store) (hid : Nat) (d : Day) : Bool :=
  s.completions.any (fun p => p.1 == hid && p.2 == d)

/-- The WHERE clause of getHabitsForDate, deciding whether habit h is due
on day d (after the auto-advance pass): daily always; custom without a
one-time date by weekday membership; custom with a one-time date by exact
date match; interval by completion on d or any of the four state
conditions. -/
def isDue (s : Store) (d : Day) (h : HabitRow) : Bool :=
  h.scheduleType == "daily"
  || (h.scheduleType == "custom" && h.oneTimeDate == none
        && s.habitDays.any (fun p => p.1 == h.id && p.2 == dayOfWeek d))
  || (h.scheduleType == "custom" && h.oneTimeDate == some d)
  || (h.scheduleType == "interval" &&
        (completedOn s h.id d
         || s.intervalState.any (fun st => st.habitId == h.id &&
              (st.nextDue == d
               || (st.rescheduleIfMissed && decide (st.nextDue < d))
               || (st.rescheduleIfMissed &&
                     (match st.lastDue, st.lastCompleted with
                      | some ld, some lc => decide (ld ≤ d) && decide (d < lc)
                      | _, _ => false))
               || (!st.rescheduleIfMissed &&
                     (match st.lastDue with
                      | some ld => ld == d &&
                          (match st.lastCompleted with
                           | none => true
                           | some lc => !(lc == ld))
                      | none => false))))))

/-- Embeds getHabitsForDate: run the auto-advance pass, then return the
due habits joined with their completion flag, in creation order; the
updated store is returned as well since the pass persists. -/
def getHabitsForDate (s : Store) (d : Day) : Store × List (HabitRow × Bool) :=
  let s1 := autoAdvanceOverdueIntervalHabits s d
  (s1, (s1.habits.filter (isDue s1 d)).map (fun h => (h, completedOn s1 h.id d)))

/-- Input record for createHabit (NewHabit in types/habit.ts, all variants
merged; absent fields are none / empty). -/
structure NewHabit where
  name : String
  scheduleType : String
  intervalDays : Option Nat
  oneTimeDate : Option Day
  days : List Nat
  startDate : Option Day
  rescheduleIfMissed : Bool
deriving DecidableEq, Repr

/-- Embeds createHabit: insert the habits row (one_time_date kept only for
custom habits, interval_days only for interval habits); insert habit_days
rows only for a custom habit without a one-time date and with a non-empty
day list; insert the initial interval_habit_state row for interval habits,
next_due defaulting to today.  id and now are passed in (the code draws
them from the clock). -/
def createHabit (s : Store) (id : Nat) (now : Nat) (today : Day) (nh : NewHabit) : Store :=
  let oneTimeDate := if nh.scheduleType == "custom" then nh.oneTimeDate else none
  let habit : HabitRow :=
    { id := id, name := nh.name, scheduleType := nh.scheduleType,
      intervalDays := if nh.scheduleType == "interval" then nh.intervalDays else none,
      oneTimeDate := oneTimeDate, createdAt := now }
  let s1 := { s with habits := s.habits ++ [habit] }
  let s2 :=
    if nh.scheduleType == "custom" && nh.oneTimeDate == none && decide (0 < nh.days.length) then
      { s1 with habitDays := s1.habitDays ++ nh.days.map (fun day => (id, day)) }
    else s1
  if nh.scheduleType == "interval" then
    { s2 with intervalState := s2.intervalState ++
        [{ habitId := id, lastCompleted := none, lastDue := none,
           nextDue := nh.startDate.getD today, rescheduleIfMissed := nh.rescheduleIfMissed }] }
  else s2

/-- Embeds completeHabit: INSERT OR IGNORE the completion row, then, when
the habit is an interval habit with a non-zero interval length, update its
state row: last_completed := the date, last_due := the current next_due
(falling back to the date when no state row exists), next_due := date plus
the interval length.  The UPDATE is keyed by habit_id, so a missing state
row stays missing. -/
def completeHabit (s : Store) (hid : Nat) (d : Day) : Store :=
  let s1 := { s with completions :=
    if (hid, d) ∈ s.completions then s.completions else s.completions ++ [(hid, d)] }
  match findHabit s.habits hid with
  | none => s1
  | some h =>
    if h.scheduleType == "interval" then
      match h.intervalDays with
      | none => s1
      | some k =>
        if k = 0 then s1
        else
          let lastDue := match findState s.intervalState hid with
            | some st => st.nextDue
            | none => d
          { s1 with intervalState := s1.intervalState.map (fun st =>
              if st.habitId == hid then
                { st with lastCompleted := some d, lastDue := some lastDue, nextDue := d + k }
              else st) }
    else s1

/-- Embeds uncompleteHabit: DELETE FROM habit_completions WHERE habit_id
and completed_date match; nothing else is touched. -/
def uncompleteHabit (s : Store) (hid : Nat) (d : Day) : Store :=
  { s with completions := s.completions.filter (fun p => !(p.1 == hid && p.2 == d)) }

/-- Insert into a list sorted descending. -/
def insertDesc (x : Day) : List Day → List Day
  | [] => [x]
  | y :: ys => if y < x then x :: y :: ys else y :: insertDesc x ys

/-- Sort a list of days descending: the ORDER BY completed_date DESC of
the streak query (date strings compare like day numbers). -/
def sortDesc : List Day → List Day
  | [] => []
  | x :: xs => insertDesc x (sortDesc xs)

/-- The loop of getStreak over the completions sorted descending: count
while each completion matches the expected day walking backward; when the
streak is still 0 allow one grace step for an uncompleted today. -/
def streakLoop : List Day → Day → Nat → Nat
  | [], _, streak => streak
  | c :: rest, expected, streak =>
    if c = expected then streakLoop rest (expected - 1) (streak + 1)
    else if streak = 0 then
      if c = expected - 1 then streakLoop rest (expected - 2) 1
      else streak
    else streak

/-- Embeds getStreak: completions of the habit up to today, newest first,
walked by streakLoop starting at today. -/
def getStreak (s : Store) (hid : Nat) (today : Day) : Nat :=
  let comps := sortDesc ((s.completions.filter
    (fun p => p.1 == hid && decide (p.2 ≤ today))).map (fun p => p.2))
  if comps = [] then 0 else streakLoop comps today 0

/-- One day check of getDailyCompletionStreak: fetch the habits due that
day (this runs the auto-advance pass, hence the updated store comes back)
and report whether there is at least one and all are completed. -/
def isCompleteDay (s : Store) (d : Day) : Store × Bool :=
  let r := getHabitsForDate s d
  (r.1, decide (0 < r.2.length) && r.2.all (fun hb => hb.2))

/-- The while loop of getDailyCompletionStreak: while the current day is
complete, count it and step back one day.  Fuel bounds the walk; the code
walks into the unbounded past, our day numbers stop at day 0, and every
run of interest stops far above it. -/
def dailyWhile (s : Store) (cursor : Day) (complete : Bool) (streak : Nat) : Nat → Nat
  | 0 => streak
  | fuel + 1 =>
    if complete then
      let p := isCompleteDay s (cursor - 1)
      dailyWhile p.1 (cursor - 1) p.2 (streak + 1) fuel
    else streak

/-- Embeds getDailyCompletionStreak: check startDate; when incomplete move
the cursor back one day and check there; then count consecutive complete
days backward. -/
def getDailyCompletionStreak (s : Store) (startDate : Day) : Nat :=
  let p1 := isCompleteDay s startDate
  let cursor := if p1.2 then startDate else startDate - 1
  let p2 := if p1.2 then (p1.1, true) else isCompleteDay p1.1 cursor
  dailyWhile p2.1 cursor p2.2 0 (startDate + 2)

/-- Forgets the last_due column of a state row; used to state that two
stores agree everywhere except possibly on last_due. -/
def stripLastDue (st : IntervalState) : IntervalState := { st with lastDue := none }

/-- The mutual-exclusivity invariant for custom habits: a stored custom
habit carrying a one-time date has no habit_days rows. -/
def ExclusiveCustom (s : Store) : Prop :=
  ∀ h ∈ s.habits, h.scheduleType = "custom" → h.oneTimeDate ≠ none →
    ∀ p ∈ s.habitDays, p.1 ≠ h.id

/-- Scenario habit of the specification: an interval habit repeating
every 3 days. -/
def habitB : HabitRow :=
  { id := 1, name := "stretch", scheduleType := "interval", intervalDays := some 3,
    oneTimeDate := none, createdAt := 0 }

/-- Scenario B store: habitB with nextDue 2024-01-01 and the reschedule
flag off. -/
def storeB : Store :=
  { habits := [habitB], habitDays := [], completions := [],
    intervalState := [{ habitId := 1, lastCompleted := none, lastDue := none,
                        nextDue := dayOfCivil 2024 1 1, rescheduleIfMissed := false }] }

/-- The state row of Scenario B after the auto-advance pass of
2024-01-10. -/
def stBAdvanced : IntervalState :=
  { habitId := 1, lastCompleted := none, lastDue := some (dayOfCivil 2024 1 7),
    nextDue := dayOfCivil 2024 1 10, rescheduleIfMissed := false }

/-- Scenario C starting store: habitB with the post-advance state. -/
def storeBAdvanced : Store :=
  { habits := [habitB], habitDays := [], completions := [], intervalState := [stBAdvanced] }

/-- Scenario D habit: interval habit with the reschedule flag on. -/
def habitD : HabitRow :=
  { id := 1, name := "water", scheduleType := "interval", intervalDays := some 3,
    oneTimeDate := none, createdAt := 0 }

/-- Scenario D state: nextDue 2024-01-01, reschedule on. -/
def stD : IntervalState :=
  { habitId := 1, lastCompleted := none, lastDue := none,
    nextDue := dayOfCivil 2024 1 1, rescheduleIfMissed := true }

/-- Scenario D store. -/
def storeD : Store :=
  { habits := [habitD], habitDays := [], completions := [], intervalState := [stD] }

/-- Scenario E store: a daily habit completed on 2024-03-04 and
2024-03-05. -/
def storeE : Store :=
  { habits := [{ id := 1, name := "read", scheduleType := "daily", intervalDays := none,
                 oneTimeDate := none, createdAt := 0 }],
    habitDays := [],
    completions := [(1, dayOfCivil 2024 3 4), (1, dayOfCivil 2024 3 5)],
    intervalState := [] }

/-- Scenario E variant with a missed day right before today: only
2024-03-04 is completed. -/
def storeE2 : Store :=
  { storeE with completions := [(1, dayOfCivil 2024 3 4)] }

/-- One-time custom habit scheduled for 2024-03-05. -/
def habitF : HabitRow :=
  { id := 1, name := "renew", scheduleType := "custom", intervalDays := none,
    oneTimeDate := some (dayOfCivil 2024 3 5), createdAt := 0 }

/-- Store for the daily-streak scenario: the one-time habit of 2024-03-05,
completed that day; 2024-03-06 has no due habits. -/
def storeF : Store :=
  { habits := [habitF], habitDays := [], completions := [(1, dayOfCivil 2024 3 5)],
    intervalState := [] }

/-- The empty store. -/
def emptyStore : Store :=
  { habits := [], habitDays := [], completions := [], intervalState := [] }

/-- A new custom habit carrying both a one-time date and a non-empty day
list. -/
def nhOneTime : NewHabit :=
  { name := "once", scheduleType := "custom", intervalDays := none,
    oneTimeDate := some (dayOfCivil 2024 3 5), days := [1, 2, 3],
    startDate := none, rescheduleIfMissed := false }

/-- The habits row inserted by createHabit. -/
def newHabitRow (id now : Nat) (nh : NewHabit) : HabitRow :=
  { id := id, name := nh.name, scheduleType := nh.scheduleType,
    intervalDays := if nh.scheduleType == "interval" then nh.intervalDays else none,
    oneTimeDate := if nh.scheduleType == "custom" then nh.oneTimeDate else none,
    createdAt := now }

/-- Ceiling division times the divisor reaches the dividend. -/
theorem le_mul_ceil (n k : Nat) (hk : 1 ≤ k) : n ≤ (n + k - 1) / k * k := by
  have h := Nat.div_add_mod (n + k - 1) k
  have h2 : (n + k - 1) % k < k := Nat.mod_lt _ (by omega)
  rw [Nat.mul_comm]
  generalize hq : (n + k - 1) / k = q at h ⊢
  generalize hr : (n + k - 1) % k = r at h h2
  generalize hA : k * q = A at h ⊢
  omega

/-- find? by a predicate commutes with a map that preserves the
predicate. -/
theorem find?_map_key {α : Type} (p : α → Bool) (f : α → α) (hp : ∀ x, p (f x) = p x)
    (l : List α) : (l.map f).find? p = (l.find? p).map f := by
  induction l with
  | nil => rfl
  | cons x xs ih =>
    simp only [List.map_cons, List.find?]
    rw [hp x]
    cases hpx : p x <;> simp [hpx, ih]

/-- advOne never changes the habit id of a state row. -/
theorem advOne_habitId (habits : List HabitRow) (d : Day) (st : IntervalState) :
    (advOne habits d st).habitId = st.habitId := by
  unfold advOne
  split
  · rfl
  · split
    · rfl
    · split <;> rfl

/-- The daily-streak while loop returns the accumulator when the current
day is not complete. -/
theorem dailyWhile_not_complete (s : Store) (c : Day) (streak fuel : Nat) :
    dailyWhile s c false streak fuel = streak := by
  cases fuel <;> simp [dailyWhile]

/-- completeHabit never touches the habits table. -/
theorem completeHabit_habits (s : Store) (hid : Nat) (d : Day) :
    (completeHabit s hid d).habits = s.habits := by
  unfold completeHabit
  repeat' split
  all_goals rfl

/-- completeHabit never touches the habit_days table. -/
theorem completeHabit_habitDays (s : Store) (hid : Nat) (d : Day) :
    (completeHabit s hid d).habitDays = s.habitDays := by
  unfold completeHabit
  repeat' split
  all_goals rfl

/-- The completions table after completeHabit: the insert-or-ignore row. -/
theorem completeHabit_completions (s : Store) (hid : Nat) (d : Day) :
    (completeHabit s hid d).completions =
      if (hid, d) ∈ s.completions then s.completions else s.completions ++ [(hid, d)] := by
  unfold completeHabit
  repeat' split
  all_goals rfl

/-- The completed pair is in the store after completeHabit. -/
theorem completeHabit_mem_completions (s : Store) (hid : Nat) (d : Day) :
    (hid, d) ∈ (completeHabit s hid d).completions := by
  rw [completeHabit_completions]
  split
  · assumption
  · simp

/-- C1: for the interval habit of Scenario B (intervalDays 3, reschedule
off, nextDue 2024-01-01), getHabitsForDate on 2024-01-10 auto-advances
with daysPassed 9 and intervalsToAdd 3, persists nextDue 2024-01-10 and
lastDue 2024-01-07, and returns the habit as due and uncompleted. -/
theorem scenarioB_auto_advance_due :
    (getHabitsForDate storeB (dayOfCivil 2024 1 10)).1.intervalState = [stBAdvanced]
    ∧ (getHabitsForDate storeB (dayOfCivil 2024 1 10)).2 = [(habitB, false)]
    ∧ dayOfCivil 2024 1 10 - dayOfCivil 2024 1 1 = 9
    ∧ (9 + 3 - 1) / 3 = 3
    ∧ formatDateString (dayOfCivil 2024 1 1) = "2024-01-01"
    ∧ formatDateString (dayOfCivil 2024 1 10) = "2024-01-10"
    ∧ formatDateString (dayOfCivil 2024 1 7) = "2024-01-07" := by
  decide

/-- C5: complete then uncomplete removes the completion row but leaves
the interval_habit_state table, the habits table and the habit_days
table exactly as complete left them; uncomplete touches no table other
than habit_completions. -/
theorem complete_uncomplete_roundtrip (s : Store) (hid : Nat) (d : Day) :
    (uncompleteHabit (completeHabit s hid d) hid d).intervalState
        = (completeHabit s hid d).intervalState
    ∧ (uncompleteHabit (completeHabit s hid d) hid d).habits
        = (completeHabit s hid d).habits
    ∧ (uncompleteHabit (completeHabit s hid d) hid d).habitDays
        = (completeHabit s hid d).habitDays
    ∧ (hid, d) ∉ (uncompleteHabit (completeHabit s hid d) hid d).completions := by
  refine ⟨rfl, rfl, rfl, ?_⟩
  intro hmem
  have := (List.mem_filter.mp hmem).2
  simp at this

/-- C9: getStreak walks backward from today and skips an uncompleted
today: with completions on 2024-03-04 and 2024-03-05 and no completion on
today 2024-03-06 the streak is 2, while a missed 2024-03-05 right before
today zeroes it. -/
theorem habitStreak_scenarioE :
    completedOn storeE 1 (dayOfCivil 2024 3 6) = false
    ∧ getStreak storeE 1 (dayOfCivil 2024 3 6) = 2
    ∧ getStreak storeE2 1 (dayOfCivil 2024 3 6) = 0 := by
  decide

/-- The interval_habit_state table after completeHabit: untouched unless
the habit is an interval habit with a non-zero interval length, in which
case the row keyed by the habit is rewritten from the pre-state. -/
theorem completeHabit_intervalState (s : Store) (hid : Nat) (d : Day) :
    (completeHabit s hid d).intervalState =
      match findHabit s.habits hid with
      | none => s.intervalState
      | some h =>
        if h.scheduleType == "interval" then
          match h.intervalDays with
          | none => s.intervalState
          | some k =>
            if k = 0 then s.intervalState
            else
              s.intervalState.map (fun st =>
                if st.habitId == hid then
                  { st with lastCompleted := some d,
                            lastDue := some (match findState s.intervalState hid with
                                             | some st0 => st0.nextDue
                                             | none => d),
                            nextDue := d + k }
                else st)
        else s.intervalState := by
  unfold completeHabit
  repeat' split
  all_goals rfl

/-- C3 counterexample: completing the Scenario B habit twice on
2024-01-10 is not a no-op on the store: the second call rewrites lastDue
from the old nextDue 2024-01-01 to 2024-01-13. -/
theorem completeHabit_duplicate_not_noop :
    completeHabit (completeHabit storeB 1 (dayOfCivil 2024 1 10)) 1 (dayOfCivil 2024 1 10)
      ≠ completeHabit storeB 1 (dayOfCivil 2024 1 10) := by
  decide

/-- C3 amended: a duplicate complete raises no error and is a no-op on
the completion ledger, the habits table and the habit_days table, and
leaves the interval state rows identical except possibly last_due, which
is overwritten with the current next_due. -/
theorem completeHabit_duplicate_effect (s : Store) (hid : Nat) (d : Day) :
    (completeHabit (completeHabit s hid d) hid d).completions
        = (completeHabit s hid d).completions
    ∧ (completeHabit (completeHabit s hid d) hid d).habits
        = (completeHabit s hid d).habits
    ∧ (completeHabit (completeHabit s hid d) hid d).habitDays
        = (completeHabit s hid d).habitDays
    ∧ (completeHabit (completeHabit s hid d) hid d).intervalState.map stripLastDue
        = (completeHabit s hid d).intervalState.map stripLastDue := by
  refine ⟨?_, completeHabit_habits _ hid d, completeHabit_habitDays _ hid d, ?_⟩
  · rw [completeHabit_completions, if_pos (completeHabit_mem_completions s hid d)]
  · rw [completeHabit_intervalState (completeHabit s hid d) hid d, completeHabit_habits,
        completeHabit_intervalState s hid d]
    cases hfind : findHabit s.habits hid with
    | none => simp only [hfind]
    | some h =>
      cases hsched : h.scheduleType == "interval" with
      | false => simp [hfind, hsched]
      | true =>
        cases hk : h.intervalDays with
        | none => simp [hfind, hsched, hk]
        | some k =>
          by_cases hk0 : k = 0
          · simp [hfind, hsched, hk, hk0]
          · simp only [hfind, hsched, hk, if_neg hk0, if_true, eq_self_iff_true,
              List.map_map]
            refine List.map_congr_left (fun st _ => ?_)
            by_cases hmatch : (st.habitId == hid) = true
            · simp [Function.comp, stripLastDue, hmatch, hk0]
            · simp [Function.comp, stripLastDue, hmatch, hk0]

/-- C4 counterexample: on 2024-03-06 the store storeF has zero habits
due, yet the daily completion streak is 1 rather than 0: the walk grants
the one-day grace step and counts the complete previous day 2024-03-05. -/
theorem dailyStreak_zero_due_not_zero :
    (getHabitsForDate storeF (dayOfCivil 2024 3 6)).2 = []
    ∧ getDailyCompletionStreak storeF (dayOfCivil 2024 3 6) = 1 := by
  decide

/-- C4 amended: a day is complete only when it has at least one due habit
and all of them are completed, so a day with zero due habits is never
itself complete and never counts; but when startDate is not complete the
walk first moves to the previous day (the grace step), so the returned
streak is 0 exactly when that previous day is not complete either. -/
theorem dailyStreak_zero_due_amended (s : Store) (d : Day)
    (h0 : (isCompleteDay s d).2 = false)
    (h1 : (isCompleteDay (isCompleteDay s d).1 (d - 1)).2 = false) :
    getDailyCompletionStreak s d = 0
    ∧ ∀ s2 d2, (getHabitsForDate s2 d2).2 = [] → (isCompleteDay s2 d2).2 = false := by
  constructor
  · simp only [getDailyCompletionStreak, h0, Bool.false_eq_true, if_false, h1]
    exact dailyWhile_not_complete _ _ _ _
  · intro s2 d2 h
    simp [isCompleteDay, h]

/-- Witness for the amended C4 theorem at the empty store: no habit is
ever due, both checks fail, and the streak is 0. -/
theorem dailyStreak_zero_due_amended_witness :
    getDailyCompletionStreak emptyStore 5 = 0
    ∧ ∀ s2 d2, (getHabitsForDate s2 d2).2 = [] → (isCompleteDay s2 d2).2 = false :=
  dailyStreak_zero_due_amended emptyStore 5 (by decide) (by decide)

/-- advOne is idempotent when every stored interval length is positive:
after a successful advance the new nextDue is at or past the reference
date, so the row is not selected again. -/
theorem advOne_idem (habits : List HabitRow) (d : Nat)
    (wf : ∀ h ∈ habits, 1 ≤ h.intervalDays.getD 1) (st : IntervalState) :
    advOne habits d (advOne habits d st) = advOne habits d st := by
  cases hfind : findHabit habits st.habitId with
  | none =>
    have hfix : advOne habits d st = st := by simp only [advOne, hfind]
    rw [hfix]
    exact hfix
  | some h =>
    cases hk : h.intervalDays with
    | none =>
      have hfix : advOne habits d st = st := by simp only [advOne, hfind, hk]
      rw [hfix]
      exact hfix
    | some k =>
      have hk1 : 1 ≤ k := by
        have hwf := wf h (List.mem_of_find?_eq_some hfind)
        rw [hk] at hwf
        exact hwf
      by_cases hc : st.rescheduleIfMissed = false ∧ st.nextDue < d
      · have hstep : advOne habits d st =
            { st with nextDue := st.nextDue + (d - st.nextDue + k - 1) / k * k,
                      lastDue := some (st.nextDue + (d - st.nextDue + k - 1) / k * k - k) } := by
          simp only [advOne, hfind, hk, if_pos hc]
        have hge : d ≤ st.nextDue + (d - st.nextDue + k - 1) / k * k := by
          have hm := le_mul_ceil (d - st.nextDue) k hk1
          omega
        rw [hstep]
        simp only [advOne, hfind, hk]
        rw [if_neg]
        rintro ⟨-, hlt⟩
        exact absurd hge (Nat.not_le.mpr hlt)
      · have hfix : advOne habits d st = st := by simp only [advOne, hfind, hk, if_neg hc]
        rw [hfix]
        exact hfix

/-- C2: the interval advancer is idempotent: running it twice with the
same reference date yields the same store as running it once, because a
successful advance moves nextDue to or past the reference date, so the
second run selects no habits (interval lengths are positive as the data
model requires). -/
theorem autoAdvance_idempotent (s : Store) (d : Nat)
    (wf : ∀ h ∈ s.habits, 1 ≤ h.intervalDays.getD 1) :
    autoAdvanceOverdueIntervalHabits (autoAdvanceOverdueIntervalHabits s d) d
      = autoAdvanceOverdueIntervalHabits s d := by
  unfold autoAdvanceOverdueIntervalHabits
  congr 1
  rw [List.map_map]
  exact List.map_congr_left (fun st _ => advOne_idem s.habits d wf st)

/-- Witness for C2 at the Scenario B store and reference date
2024-01-10. -/
theorem autoAdvance_idempotent_witness :
    autoAdvanceOverdueIntervalHabits
        (autoAdvanceOverdueIntervalHabits storeB (dayOfCivil 2024 1 10)) (dayOfCivil 2024 1 10)
      = autoAdvanceOverdueIntervalHabits storeB (dayOfCivil 2024 1 10) :=
  autoAdvance_idempotent storeB (dayOfCivil 2024 1 10) (by decide)

/-- findState after a per-row update that keeps habit ids: the find
commutes with the map. -/
theorem findState_map_upd (l : List IntervalState) (hid : Nat)
    (f : IntervalState → IntervalState) (hf : ∀ x, (f x).habitId = x.habitId) :
    findState (l.map f) hid = (findState l hid).map f := by
  unfold findState
  apply find?_map_key
  intro x
  rw [hf]

/-- A row found by findState carries the looked-up habit id. -/
theorem findState_some_id {l : List IntervalState} {hid : Nat} {st : IntervalState}
    (h : findState l hid = some st) : (st.habitId == hid) = true := by
  unfold findState at h
  have hx := List.find?_some h
  exact hx

/-- A row found by findState is in the table. -/
theorem findState_mem {l : List IntervalState} {hid : Nat} {st : IntervalState}
    (h : findState l hid = some st) : st ∈ l := by
  unfold findState at h
  exact List.mem_of_find?_eq_some h

/-- C6: completing an interval habit with interval length k rewrites its
state row: lastCompleted becomes the completion date, lastDue the current
nextDue, and nextDue the completion date plus k. -/
theorem completeHabit_interval_update (s : Store) (hid : Nat) (d : Nat)
    (h : HabitRow) (k : Nat) (st : IntervalState)
    (hfind : findHabit s.habits hid = some h)
    (hsched : h.scheduleType = "interval")
    (hk : h.intervalDays = some k) (hk0 : k ≠ 0)
    (hst : findState s.intervalState hid = some st) :
    findState (completeHabit s hid d).intervalState hid =
      some { st with
        lastCompleted := some d, lastDue := some st.nextDue, nextDue := d + k } := by
  have hpred : (st.habitId == hid) = true := findState_some_id hst
  rw [completeHabit_intervalState s hid d, hfind]
  simp only [hsched, hk, beq_self_eq_true, if_true, if_neg hk0, hst]
  rw [findState_map_upd]
  · rw [hst]
    simp [hpred]
    intro hne
    exact absurd (by simpa using hpred) hne
  · intro x
    by_cases hx : (x.habitId == hid) = true
    · simp [hx]
    · simp [hx]

/-- Witness for C6: Scenario C, completing the advanced Scenario B habit
on 2024-01-10 yields lastCompleted 2024-01-10, lastDue 2024-01-10 and
nextDue 2024-01-13. -/
theorem completeHabit_interval_update_witness :
    findState (completeHabit storeBAdvanced 1 (dayOfCivil 2024 1 10)).intervalState 1 =
      some { habitId := 1, lastCompleted := some (dayOfCivil 2024 1 10),
             lastDue := some (dayOfCivil 2024 1 10), nextDue := dayOfCivil 2024 1 13,
             rescheduleIfMissed := false }
    ∧ formatDateString (dayOfCivil 2024 1 13) = "2024-01-13" := by
  constructor
  · have happ := completeHabit_interval_update storeBAdvanced 1 (dayOfCivil 2024 1 10)
      habitB 3 stBAdvanced rfl rfl rfl (by decide) rfl
    rw [happ]
    decide
  · decide

/-- C7: an interval habit with the reschedule flag on is never modified by
the interval advancer, and while its state row is unchanged it is listed
as due on every date at or past its nextDue. -/
theorem reschedule_kept_visible (s : Store) (d : Nat) (h : HabitRow) (st : IntervalState)
    (hres : st.rescheduleIfMissed = true) :
    advOne s.habits d st = st
    ∧ (h ∈ s.habits → h.scheduleType = "interval" →
        findState s.intervalState h.id = some st → st.nextDue ≤ d →
        ∃ b, (h, b) ∈ (getHabitsForDate s d).2) := by
  have hfix : ∀ habits, advOne habits d st = st := by
    intro habits
    unfold advOne
    split
    · rfl
    · split
      · rfl
      · rw [if_neg]
        rintro ⟨h1, -⟩
        rw [hres] at h1
        exact Bool.noConfusion h1
  refine ⟨hfix s.habits, fun hmem hsched hst hle => ?_⟩
  have hpred : (st.habitId == h.id) = true := findState_some_id hst
  have hst1 : findState (autoAdvanceOverdueIntervalHabits s d).intervalState h.id = some st := by
    show findState (s.intervalState.map (advOne s.habits d)) h.id = some st
    rw [findState_map_upd _ _ _ (advOne_habitId s.habits d), hst]
    simp [hfix]
  have hmem1 : st ∈ (autoAdvanceOverdueIntervalHabits s d).intervalState :=
    findState_mem hst1
  refine ⟨completedOn (autoAdvanceOverdueIntervalHabits s d) h.id d, ?_⟩
  show (h, completedOn (autoAdvanceOverdueIntervalHabits s d) h.id d) ∈
    ((autoAdvanceOverdueIntervalHabits s d).habits.filter
      (isDue (autoAdvanceOverdueIntervalHabits s d) d)).map
        (fun x => (x, completedOn (autoAdvanceOverdueIntervalHabits s d) x.id d))
  apply List.mem_map_of_mem
  apply List.mem_filter_of_mem hmem
  simp only [isDue, hsched]
  have hdisj : (st.nextDue == d
      || (st.rescheduleIfMissed && decide (st.nextDue < d))
      || (st.rescheduleIfMissed &&
            (match st.lastDue, st.lastCompleted with
             | some ld, some lc => decide (ld ≤ d) && decide (d < lc)
             | _, _ => false))
      || (!st.rescheduleIfMissed &&
            (match st.lastDue with
             | some ld => ld == d &&
                 (match st.lastCompleted with
                  | none => true
                  | some lc => !(lc == ld))
             | none => false))) = true := by
    rcases Nat.eq_or_lt_of_le hle with heq | hlt
    · simp [heq]
    · simp [hres, hlt]
  have hany : ((autoAdvanceOverdueIntervalHabits s d).intervalState.any
      (fun st' => st'.habitId == h.id &&
        (st'.nextDue == d
         || (st'.rescheduleIfMissed && decide (st'.nextDue < d))
         || (st'.rescheduleIfMissed &&
               (match st'.lastDue, st'.lastCompleted with
                | some ld, some lc => decide (ld ≤ d) && decide (d < lc)
                | _, _ => false))
         || (!st'.rescheduleIfMissed &&
               (match st'.lastDue with
                | some ld => ld == d &&
                    (match st'.lastCompleted with
                     | none => true
                     | some lc => !(lc == ld))
                | none => false))))) = true := by
    rw [List.any_eq_true]
    refine ⟨st, hmem1, ?_⟩
    rw [hpred, Bool.true_and]
    exact hdisj
  simp [hany]

/-- Witness for C7: Scenario D, reschedule on and nextDue 2024-01-01; the
advancer leaves the state alone and the habit is still due on
2024-01-15. -/
theorem reschedule_kept_visible_witness :
    advOne storeD.habits (dayOfCivil 2024 1 15) stD = stD
    ∧ ∃ b, (habitD, b) ∈ (getHabitsForDate storeD (dayOfCivil 2024 1 15)).2 :=
  ⟨(reschedule_kept_visible storeD (dayOfCivil 2024 1 15) habitD stD rfl).1,
   (reschedule_kept_visible storeD (dayOfCivil 2024 1 15) habitD stD rfl).2
     (by decide) rfl (by decide) (by decide)⟩

/-- C8: a custom habit carrying a one-time date is returned by
getHabitsForDate only when the one-time date equals the queried date
exactly, independently of weekday and habit_days rows. -/
theorem oneTime_custom_exact_date (s : Store) (d : Nat) (h : HabitRow) (b : Bool) (dt : Nat)
    (hmem : (h, b) ∈ (getHabitsForDate s d).2)
    (hsched : h.scheduleType = "custom")
    (hdt : h.oneTimeDate = some dt) :
    dt = d := by
  obtain ⟨a, ha, hab⟩ := List.mem_map.mp hmem
  obtain ⟨rfl, -⟩ : a = h ∧ completedOn (autoAdvanceOverdueIntervalHabits s d) a.id d = b :=
    Prod.mk.injEq .. ▸ hab
  have hdue : isDue (autoAdvanceOverdueIntervalHabits s d) d a = true :=
    (List.mem_filter.mp ha).2
  simp [isDue, hsched, hdt] at hdue
  exact hdue

/-- Witness for C8: the one-time habit of storeF is due on its exact date
2024-03-05 (and is completed there). -/
theorem oneTime_custom_exact_date_witness :
    (habitF, true) ∈ (getHabitsForDate storeF (dayOfCivil 2024 3 5)).2
    ∧ dayOfCivil 2024 3 5 = dayOfCivil 2024 3 5 :=
  ⟨by decide,
   oneTime_custom_exact_date storeF (dayOfCivil 2024 3 5) habitF true (dayOfCivil 2024 3 5)
     (by decide) rfl rfl⟩

/-- The habits table after createHabit: the new row is appended. -/
theorem createHabit_habits (s : Store) (id now today : Nat) (nh : NewHabit) :
    (createHabit s id now today nh).habits = s.habits ++ [newHabitRow id now nh] := by
  unfold newHabitRow
  unfold createHabit
  repeat' split
  all_goals rfl

/-- The habit_days table after createHabit: rows are inserted only for a
custom habit without a one-time date and with a non-empty day list. -/
theorem createHabit_habitDays (s : Store) (id now today : Nat) (nh : NewHabit) :
    (createHabit s id now today nh).habitDays =
      if nh.scheduleType == "custom" && nh.oneTimeDate == none && decide (0 < nh.days.length)
      then s.habitDays ++ nh.days.map (fun day => (id, day))
      else s.habitDays := by
  unfold createHabit
  repeat' split
  all_goals rfl

/-- C10: createHabit with schedule custom and a one-time date set inserts
no habit_days rows even when the day list is non-empty, and creation with
a fresh id preserves the mutual-exclusivity invariant: every stored
custom habit is weekday-recurring or one-time, never both. -/
theorem createHabit_oneTime_no_days (s : Store) (id now today : Nat) (nh : NewHabit)
    (hfreshH : ∀ h ∈ s.habits, h.id ≠ id)
    (hfreshD : ∀ p ∈ s.habitDays, p.1 ≠ id)
    (hinv : ExclusiveCustom s) :
    (nh.scheduleType = "custom" → nh.oneTimeDate ≠ none →
        (createHabit s id now today nh).habitDays = s.habitDays)
    ∧ ExclusiveCustom (createHabit s id now today nh) := by
  constructor
  · intro hsched hot
    rw [createHabit_habitDays]
    cases hot2 : nh.oneTimeDate with
    | none => exact absurd hot2 hot
    | some dt => simp [hot2]
  · intro h hmem hcust hone p hp
    rw [createHabit_habits] at hmem
    rw [createHabit_habitDays] at hp
    rcases List.mem_append.mp hmem with hold | hnew
    · split at hp
      · rcases List.mem_append.mp hp with hpold | hpnew
        · exact hinv h hold hcust hone p hpold
        · obtain ⟨day, -, hpd⟩ := List.mem_map.mp hpnew
          rw [← hpd]
          exact fun hcontra => hfreshH h hold hcontra.symm
      · exact hinv h hold hcust hone p hp
    · have hh : h = newHabitRow id now nh := List.mem_singleton.mp hnew
      split at hp
      case isTrue hcond =>
        exfalso
        apply hone
        rw [hh]
        have hnone : nh.oneTimeDate = none := by
          have h1 := (Bool.and_eq_true .. ▸ hcond).1
          have h2 := (Bool.and_eq_true .. ▸ h1).2
          simpa using h2
        simp [newHabitRow, hnone]
      case isFalse =>
        intro hcontra
        apply hfreshD p hp
        rw [hcontra, hh]
        rfl

/-- Witness for C10 at the empty store with a custom one-time request
carrying a non-empty day list. -/
theorem createHabit_oneTime_no_days_witness :
    (createHabit emptyStore 1 0 0 nhOneTime).habitDays = []
    ∧ ExclusiveCustom (createHabit emptyStore 1 0 0 nhOneTime) :=
  ⟨(createHabit_oneTime_no_days emptyStore 1 0 0 nhOneTime
      (fun h hm => absurd hm (List.not_mem_nil h))
      (fun p hp => absurd hp (List.not_mem_nil p))
      (fun h hm => absurd hm (List.not_mem_nil h))).1 rfl (by decide),
   (createHabit_oneTime_no_days emptyStore 1 0 0 nhOneTime
      (fun h hm => absurd hm (List.not_mem_nil h))
      (fun p hp => absurd hp (List.not_mem_nil p))
      (fun h hm => absurd hm (List.not_mem_nil h))).2⟩

end HabitsApp
